import Mathlib

/-!
Verification development for the name-resolution core (`jedi/evaluate/finder.py`).

The Python source is shallowly embedded: tree nodes, scopes and value
representations become explicit Lean data, the stateful walks become
structural recursion, and the external collaborators (reachability primitive,
argument
unpacking, evaluator callbacks) become oracle parameters.  Each embedded
function keeps the source's name and mirrors its control flow statement by
statement.
-/

namespace JediFinder

/-- Kind of a scope node, as distinguished by the source's type tests
(`isinstance(..., pr.Class)`, `scope.type == 'funcdef'`, `er.Instance`,
`er.FunctionExecution`, `compiled.CompiledObject`, ...). -/
inductive SKind where
  | module
  | classdef
  | funcdef
  | inst
  | instElement
  | funcExec
  | compiled
  | flow
  | other
deriving DecidableEq, Repr

/-- The three-valued reachability verdict returned by the external
`flow_analysis.break_check` collaborator (spec section 3). -/
inductive Verdict where
  | reachable
  | unreachable
  | unsure
deriving DecidableEq, Repr

/-- Kind of the defining statement of a name, as distinguished by
`isinstance(stmt, (pr.CompFor, pr.Lambda, pr.GlobalStmt))` in
`filter_definition_names`. -/
inductive StmtKind where
  | exprStmt
  | compFor
  | lambdaDef
  | globalStmt
  | other
deriving DecidableEq, Repr

/-- A reference to one scope node of the tree.  `id` is the node's identity;
`baseBase` is meaningful for `inst`-kind nodes only and names the underlying
class node (`instance.base.base` in the source). -/
structure ScopeRef where
  kind : SKind
  id : Nat
  baseBase : Nat := 0
deriving DecidableEq, Repr

/-- One Name occurrence together with the facts about it that
`filter_definition_names` and `NameFinder.names_dict_lookup` consult.
Oracle-style fields stand for the answers of external collaborators:

* `verdict` is the `flow_analysis.break_check` result for this name's
  defining statement;
* `nameScopeKind` is the kind of `er.wrap(stmt.get_parent_scope())`;
* `isCompiledName` covers `isinstance(name, compiled.CompiledName)` as well
  as the `InstanceName`-with-compiled-origin disjunct;
* `stmtParentCompiled` is `isinstance(stmt.parent, compiled.CompiledObject)`;
* `defScope` / `defScopeParent` are `stmt.get_parent_scope()` and its own
  parent scope (used by `filter_private_variable`);
* `parentScopeChain` is the chain of `get_parent_scope()` results starting
  from the name itself (used by `filter_private_variable`'s while loop);
* `isParamChild` is `isinstance(el.parent, pr.Param) or
  isinstance(el.parent.parent, pr.Param)` in `get_param`.

Textual positions are linearized to a single `Nat`; only their order is ever
consulted by the source. -/
structure DefName where
  id : Nat
  value : String
  startPos : Nat
  isDefinition : Bool := true
  stmtKind : StmtKind := .exprStmt
  defScope : ScopeRef := { kind := .funcdef, id := 0 }
  defScopeParent : Option ScopeRef := none
  defScopeIsLambdaExec : Bool := false
  parentScopeChain : List ScopeRef := []
  nameScopeKind : SKind := .funcdef
  isCompiledName : Bool := false
  stmtParentCompiled : Bool := false
  verdict : Verdict := .unsure
  isParamChild : Bool := false
deriving DecidableEq, Repr

/-- A names dictionary: mapping from identifier string to all Name
occurrences of that identifier in the scope (spec section 3). -/
abbrev NamesDict := List (String × List DefName)

/-- Dictionary access `names_dict[search_str]`; `none` models the `KeyError`
branch. -/
def dictLookup : NamesDict → String → Option (List DefName)
  | [], _ => none
  | (k, v) :: rest, s => if k = s then some v else dictLookup rest s

/-- The while loop of `filter_private_variable`: starting from the searched
name, walk `get_parent_scope()` until a `pr.Class` node or `None`. -/
def comingFromClass : List ScopeRef → Option ScopeRef
  | [] => none
  | s :: rest => if s.kind = SKind.classdef then some s else comingFromClass rest

/-- `filter_private_variable(scope, search_name)` (finder.py:658).  `scope`
enters only through its parent (`instance = scope.get_parent_scope()`), which
is passed here directly; `chain` is the searched name's parent-scope chain.
The source compares tree nodes by identity, here by `id`. -/
def filter_private_variable (scopeParent : Option ScopeRef) (chain : List ScopeRef) : Bool :=
  match scopeParent with
  | none => false
  | some i =>
    decide (i.kind = SKind.inst) &&
      decide ((comingFromClass chain).map (fun c => c.id) ≠ some i.baseBase)

/-- Whether a character list starts with two underscores. -/
def dunderFront : List Char → Bool
  | c1 :: c2 :: _ => c1 = '_' && c2 = '_'
  | _ => false

/-- The double-underscore test of finder.py:47:
`name.value.startswith('__') and not name.value.endswith('__')`, computed on
the character list (a string ends with two underscores exactly when its
reversal starts with them). -/
def isPrivateName (v : String) : Bool :=
  dunderFront v.data && !(dunderFront v.data.reverse)

/-- The `for name in names: ... names.remove(name)` loop of
finder.py:46-49, with Python's exact semantics: iteration is by index, and
removing the current element shifts the remainder left so that the following
element is skipped.  `List.erase` matches `list.remove` (first occurrence).
The `fuel` argument only makes the recursion structural: the index grows by
one per step while the list never grows, so any fuel of at least the initial
list length is enough, and the caller passes exactly that. -/
def privFilterLoop (scopeParent : Option ScopeRef) :
    Nat → List DefName → Nat → List DefName
  | 0, names, _ => names
  | fuel + 1, names, i =>
    if h : i < names.length then
      if isPrivateName (names.get ⟨i, h⟩).value &&
          filter_private_variable scopeParent (names.get ⟨i, h⟩).parentScopeChain then
        privFilterLoop scopeParent fuel (names.erase (names.get ⟨i, h⟩)) (i + 1)
      else
        privFilterLoop scopeParent fuel names (i + 1)
    else names

/-- Modelled from the spec: `pr.filter_after_position` lives in the parser
tree module, which is not under src/.  Spec section 4.2: if a position cutoff
applies, drop occurrences whose definition is textually after the cutoff
(the source keeps `start_pos < position`). -/
def filter_after_position (names : List DefName) (position : Option Nat) : List DefName :=
  match position with
  | none => names
  | some p => names.filter (fun n => n.startPos < p)

/-- `filter_definition_names(names, position)` (finder.py:35-54).  The scope
is computed once, from the first name (source comment: "Just calculate the
scope from the first"); an empty input would fault in the source
(`names[0]`) but is only ever reached guarded. -/
def filter_definition_names (names : List DefName) (position : Option Nat) : List DefName :=
  match names with
  | [] => []
  | first :: _ =>
    if first.stmtKind = StmtKind.compFor ∨ first.stmtKind = StmtKind.lambdaDef ∨
        first.stmtKind = StmtKind.globalStmt then
      names
    else
      let names1 := privFilterLoop first.defScopeParent names.length names 0
      let names2 :=
        if !(decide (first.defScope.kind = SKind.funcExec) && first.defScopeIsLambdaExec)
        then filter_after_position names1 position
        else names1
      names2.filter (fun n => n.isDefinition)

/-- Stable insertion preserving earlier-equal elements, so that
`sortAscending` agrees with Python's stable `sorted(names, key=start_pos)`;
two distinct definitions never share a textual position. -/
def insertAsc (n : DefName) : List DefName → List DefName
  | [] => [n]
  | m :: rest =>
    if m.startPos ≤ n.startPos then m :: insertAsc n rest else n :: m :: rest

/-- `sorted(names, key=lambda name: name.start_pos)`. -/
def sortAscending : List DefName → List DefName
  | [] => []
  | n :: rest => insertAsc n (sortAscending rest)

namespace NameFinder

/-- The `for name in reversed(sorted(names, ...))` loop of
`names_dict_lookup` (finder.py:114-147).  `selfIsInstance` is
`isinstance(self.scope, er.Instance)`; `acc` is `last_names`; the threaded
`Option SKind` is the running `name_scope` variable (set at the top of every
iteration, `none` while no iteration has run). -/
def ndlWalk (selfIsInstance : Bool) :
    List DefName → List DefName → Option SKind → List DefName × Option SKind
  | [], acc, ns => (acc, ns)
  | n :: rest, acc, _ =>
    let ns := some n.nameScopeKind
    if selfIsInstance && !(decide (n.nameScopeKind = SKind.inst)) then
      ndlWalk selfIsInstance rest (acc ++ [n]) ns
    else if n.nameScopeKind = SKind.compiled then
      ndlWalk selfIsInstance rest (acc ++ [n]) ns
    else if n.isCompiledName then
      ndlWalk selfIsInstance rest (acc ++ [n]) ns
    else if n.stmtParentCompiled then
      ndlWalk selfIsInstance rest acc ns
    else
      match n.verdict with
      | Verdict.unreachable => ndlWalk selfIsInstance rest acc ns
      | Verdict.unsure => ndlWalk selfIsInstance rest (acc ++ [n]) ns
      | Verdict.reachable => (acc ++ [n], ns)

/-- The inner `get_param` of `names_dict_lookup` (finder.py:96-99);
`paramByName` is the external `scope.param_by_name` lookup. -/
def get_param (paramByName : DefName → DefName) (n : DefName) : DefName :=
  if n.isParamChild then paramByName n else n

/-- `NameFinder.names_dict_lookup(names_dict, position)` (finder.py:95-152):
dictionary access, `filter_definition_names`, the descending-position walk,
and the final parameter rebinding when the last examined scope was a
function execution. -/
def names_dict_lookup (selfIsInstance : Bool) (paramByName : DefName → DefName)
    (names_dict : NamesDict) (search_str : String) (position : Option Nat) :
    List DefName :=
  match dictLookup names_dict search_str with
  | none => []
  | some [] => []
  | some (first :: rest) =>
    let names := filter_definition_names (first :: rest) position
    let sorted := (sortAscending names).reverse
    let walked := ndlWalk selfIsInstance sorted [] none
    if walked.2 = some SKind.funcExec then walked.1.map (get_param paramByName)
    else walked.1

end NameFinder

/-- The candidate walk as the spec words it (spec section 4.2, step 5):
accumulate every non-UNREACHABLE candidate and stop at the first REACHABLE
one, keeping everything accumulated so far.  Compared against the embedded
`names_dict_lookup` in the C1 theorem. -/
def specAccum : List DefName → List DefName
  | [] => []
  | n :: rest =>
    match n.verdict with
    | Verdict.unreachable => specAccum rest
    | Verdict.unsure => n :: specAccum rest
    | Verdict.reachable => [n]

/-- A candidate that takes none of the special-case branches of the walk:
its statement and scopes are ordinary source-level (non-compiled,
non-instance, non-function-execution) nodes, it is a plain definition of a
non-private name, and its defining statement is an expression statement. -/
def plainName (n : DefName) : Bool :=
  !(decide (n.nameScopeKind = SKind.compiled)) &&
  !(decide (n.nameScopeKind = SKind.funcExec)) &&
  !n.isCompiledName &&
  !n.stmtParentCompiled &&
  !(isPrivateName n.value) &&
  n.isDefinition &&
  decide (n.stmtKind = StmtKind.exprStmt) &&
  !n.defScopeIsLambdaExec

/-! ## Memoized definition resolution (`_name_to_types`, finder.py:359-392)

The `@memoize_default([], evaluator_is_first_arg=True)` decorator lives in
`jedi/evaluate/cache.py`, which is not under src/.  Modelled from the spec
(section 4.4): resolution of a (scope, definition, referencing-name) triple
is cached; before the body runs, the default (the empty list) is stored
under the triple's key, so a resolution currently in progress for the same
triple returns the empty set to any re-entrant call; afterwards the computed
result replaces the default in the cache.

Keys (`Nat`) stand for the resolution triples.  The definition bodies are
reduced to the one shape the claim exercises: a right-hand side that is
either a literal or a reference to another name, in which case the evaluator
re-enters resolution on that name's triple (the `x = x` path through
`_remove_statements` and `evaluator.eval_statement`).  The `fuel` argument
only bounds recursion depth; the theorems show the result is the same for
every sufficient fuel, which is the step-indexed statement of termination. -/

/-- Right-hand side of a definition: a literal value or a reference to the
name bound by another resolution triple. -/
inductive Rhs where
  | lit (v : Nat)
  | ref (k : Nat)
deriving DecidableEq, Repr

/-- The per-function memo dictionary of `memoize_default`; newest entries
shadow older ones. -/
abbrev Memo := List (Nat × List Nat)

/-- `key in memo` / `memo[key]`. -/
def memoLookup : Memo → Nat → Option (List Nat)
  | [], _ => none
  | (k, v) :: rest, key => if k = key then some v else memoLookup rest key

/-- `_name_to_types` under `memoize_default([])`: on a cache hit return the
cached value (which is the default `[]` while the same triple is still being
resolved); on a miss, store `[]`, run the body, then store the result. -/
def _name_to_types (defs : Nat → Option Rhs) : Nat → Memo → Nat → List Nat × Memo
  | 0, memo, _ => ([], memo)
  | fuel + 1, memo, key =>
    match memoLookup memo key with
    | some v => (v, memo)
    | none =>
      let memo1 := (key, []) :: memo
      let body :=
        match defs key with
        | none => ([], memo1)
        | some (Rhs.lit v) => ([v], memo1)
        | some (Rhs.ref j) => _name_to_types defs fuel memo1 j
      (body.1, (key, body.1) :: body.2)

/-- The program `x = x` with no prior binding of `x`: the definition of
key 0 references key 0 itself. -/
def selfRefDefs : Nat → Option Rhs :=
  fun k => if k = 0 then some (Rhs.ref 0) else none

/-! ## Parameter resolution (`_eval_param`, finder.py:423-465) -/

/-- One parameter node together with the answers of the external
collaborators consulted by `_eval_param`:

* `isExecuted` is `isinstance(param, ExecutedParam)`;
* `docParams` is the `docstrings.follow_param` result;
* `dynamicParams` is the `dynamic.search_params` result;
* `executedEval` is `param.eval(evaluator)` for executed parameters;
* `defaultEval` is `some` of the evaluated default expression when the
  parameter has a default (`param.default` truthy), else `none`;
* `stars` is 0, 1 (`*args`) or 2 (`**kwargs`).

Inferred value representations are opaque `Nat` identifiers here. -/
structure PyParam where
  positionNr : Nat := 0
  isExecuted : Bool := false
  docParams : List Nat := []
  dynamicParams : List Nat := []
  stars : Nat := 0
  defaultEval : Option (List Nat) := none
  executedEval : List Nat := []
deriving DecidableEq, Repr

/-- Facts about the enclosing function consulted by `_eval_param`:
`clsIsClass` is `isinstance(func.parent.get_parent_until((Class, Function)),
pr.Class)`; `isGeneratedInit` is the conjunction `isinstance(func,
er.InstanceElement) and func.instance.is_generated and str(func.name) ==
'__init__'`; `varParams` is `func.var.params`. -/
structure FuncInfo where
  clsIsClass : Bool := false
  isGeneratedInit : Bool := false
  varParams : List PyParam := []
deriving DecidableEq, Repr

/-- The `scope` argument of `_eval_param`: whether it is an
`er.InstanceElement`, and `scope.instance` as an opaque value. -/
structure EvalScope where
  isInstanceElement : Bool := false
  instanceVal : Nat := 0
deriving DecidableEq, Repr

/-- `_eval_param(evaluator, param, scope)` (finder.py:423-465).  `tupleExec`
and `dictExec` are the evaluator's executions of the builtin `tuple` and
`dict` classes; `newInst` is the freshly synthesized generated
`er.Instance`.  The source indexes `func.var.params[param.position_nr]`,
which always succeeds for a parameter of that same function; `getD` mirrors
that total access. -/
def _eval_param (tupleExec dictExec : List Nat) (newInst : Nat)
    (param : PyParam) (func : FuncInfo) (scope : EvalScope) : List Nat :=
  if func.clsIsClass ∧ param.positionNr = 0 ∧ ¬param.isExecuted then
    if scope.isInstanceElement then [scope.instanceVal] else [newInst]
  else
    let param1 := if func.isGeneratedInit then func.varParams.getD param.positionNr param
                  else param
    if param1.docParams ≠ [] then param1.docParams
    else if param1.isExecuted then param1.executedEval
    else
      let res1 := param1.dynamicParams
      let res2 :=
        if res1 = [] ∧ param1.stars ≠ 0 then
          if param1.stars = 1 then tupleExec else dictExec
        else res1
      res2 ++ (param1.defaultEval.getD [])

/-! ## Value representations -/

/-- An inferred value representation (spec section 3), carrying the three
capabilities the finder probes for with `try/except AttributeError`:

* `idxTable`: `get_exact_index_types`; `some table` means the capability is
  present and `table.get? i` is the result for index `i`, a missing entry
  being the `IndexError` case;
* `descrReturns`: `get_descriptor_returns`; the accessing scope is fixed for
  the duration of one `_resolve_descriptors` call, so the bound result is a
  plain list;
* `arrayValues`: `some` with the element list when the representation is an
  `iterable.Array` (whose `.values()` the isinstance check flattens). -/
inductive Rep where
  | mk (id : Nat) (idxTable : Option (List (List Rep)))
      (descrReturns : Option (List Rep)) (arrayValues : Option (List Rep))

/-- The representation's identity. -/
def Rep.id : Rep → Nat
  | Rep.mk i _ _ _ => i

/-- The `get_exact_index_types` capability. -/
def Rep.idxTable : Rep → Option (List (List Rep))
  | Rep.mk _ t _ _ => t

/-- The `get_descriptor_returns` capability. -/
def Rep.descrReturns : Rep → Option (List Rep)
  | Rep.mk _ _ d _ => d

/-- The `iterable.Array` contents, when the representation is one. -/
def Rep.arrayValues : Rep → Option (List Rep)
  | Rep.mk _ _ _ a => a

/-- A plain representation with no capabilities. -/
def Rep.atom (i : Nat) : Rep := Rep.mk i none none none

/-! ## Syntax tree nodes for the isinstance check -/

/-- A parser tree node, as probed by `_check_isinstance_type`: a Name leaf
(with its textual value and its `get_code()` text), an operator leaf, or an
inner node with a `type` string, children and `get_code()` text. -/
inductive PyNode where
  | leafName (value : String) (code : String)
  | op (s : String)
  | node (typ : String) (children : List PyNode) (code : String)

/-- `node.type`. -/
def PyNode.typeOf : PyNode → String
  | PyNode.leafName _ _ => "name"
  | PyNode.op _ => "operator"
  | PyNode.node t _ _ => t

/-- `node.children` (leaves have none). -/
def PyNode.childrenOf : PyNode → List PyNode
  | PyNode.leafName _ _ => []
  | PyNode.op _ => []
  | PyNode.node _ c _ => c

/-- `node.get_code()`. -/
def PyNode.codeOf : PyNode → String
  | PyNode.leafName _ c => c
  | PyNode.op s => s
  | PyNode.node _ _ c => c

/-- `isinstance(n, pr.Name) and n.value == v`. -/
def PyNode.isNameWith : PyNode → String → Bool
  | PyNode.leafName v _, s => v = s
  | _, _ => false

/-- `n == '('` — jedi operators compare equal to their string. -/
def PyNode.isOp : PyNode → String → Bool
  | PyNode.op v, s => v = s
  | _, _ => false

/-- The external collaborators of the flow checks: `param.Arguments(...)
.unpack()` (argument list splitting, `jedi/evaluate/param.py` is not under
src/), `evaluator.eval_element` and `evaluator.execute`. -/
structure EvalOracle where
  unpack : PyNode → List (Option String × List PyNode)
  evalElement : PyNode → List Rep
  execute : Rep → List Rep

/-- `_check_isinstance_type(evaluator, element, search_name)`
(finder.py:495-524).  `callCode` is `helpers.call_of_name(search_name)
.get_code()`, the textual form of the access expression around the
reference.  Return value: `some r` is a normal return (`some []` for every
shape rejected by an `assert`, since `AssertionError` is caught); `none`
models an uncaught `IndexError` from `lst[i][1][0]` on an argument with no
values — the only exception `except AssertionError` does not stop. -/
def _check_isinstance_type (o : EvalOracle) (element : PyNode) (callCode : String) :
    Option (List Rep) :=
  if element.typeOf ≠ "power" then some [] else
  match element.childrenOf with
  | [first, trailer] =>
    if !(first.isNameWith ("isinstance")) then some []
    else if trailer.typeOf ≠ "trailer" then some []
    else
      match trailer.childrenOf with
      | [] => none
      | c0 :: restc =>
        if !(c0.isOp ("(")) then some []
        else
          match restc with
          | [arglist, _c2] =>
            match o.unpack arglist with
            | [(none, vals1), (none, vals2)] =>
              match vals1.head?, vals2.head? with
              | some nameNode, some classes =>
                if nameNode.codeOf = callCode then
                  some ((o.evalElement classes).flatMap (fun t =>
                    (match t.arrayValues with
                     | some vs => vs
                     | none => [t]).flatMap o.execute))
                else some []
              | _, _ => none
            | _ => some []
          | _ => some []
  | _ => some []

/-! ## Flow-sensitive narrowing (`check_flow_information`,
`NameFinder._names_to_types`) -/

/-- An `assert` statement attached to a scope: its position and its
condition (`ass.assertion()`). -/
structure AssertStmt where
  startPos : Nat
  assertion : PyNode

/-- One node of the reference's ancestor chain as consulted by the narrowing
walk: its kind (for the `get_parent_until(er.FunctionExecution)` test),
whether it `is_scope()`, its attached asserts, whether it is an
`IfStmt`/`WhileStmt`, and in that case its condition (`flow.children[1]`). -/
structure FlowNode where
  kind : SKind := SKind.flow
  isScope : Bool := false
  asserts : List AssertStmt := []
  isIfOrWhile : Bool := false
  condition : PyNode := PyNode.op ("")

/-- The `for ass in reversed(flow.asserts)` loop of `check_flow_information`
(finder.py:482-487); the caller passes the asserts already reversed.
Asserts at or after the reference position — or all of them when the
position is unknown — are skipped; the first non-empty isinstance narrowing
breaks the loop.  `none` propagates an uncaught exception from
`_check_isinstance_type`. -/
def assertLoop (o : EvalOracle) (callCode : String) (pos : Option Nat) :
    List AssertStmt → Option (List Rep)
  | [] => some []
  | a :: rest =>
    match pos with
    | none => assertLoop o callCode pos rest
    | some p =>
      if a.startPos > p then assertLoop o callCode (some p) rest
      else
        match _check_isinstance_type o a.assertion callCode with
        | none => none
        | some r => if r.isEmpty then assertLoop o callCode (some p) rest else some r

/-- `check_flow_information(evaluator, flow, search_name_part, pos)`
(finder.py:468-492).  `dfi` is the global `settings.dynamic_flow_information`
flag.  The source returns `None` when the flag is off and possibly the empty
list otherwise; its only caller tests truthiness, under which both are the
same, so both are rendered as `some []`. -/
def check_flow_information (dfi : Bool) (o : EvalOracle) (flow : FlowNode)
    (callCode : String) (pos : Option Nat) : Option (List Rep) :=
  if !dfi then some []
  else
    let r0 := if flow.isScope then assertLoop o callCode pos flow.asserts.reverse
              else some []
    match r0 with
    | none => none
    | some result =>
      if flow.isIfOrWhile then _check_isinstance_type o flow.condition callCode
      else some result

/-- The `while flow_scope ...` walk of `_names_to_types` (finder.py:318-324):
ask each enclosing node for narrowing, returning the first truthy answer.
Outer `none` propagates an exception; `some none` means the walk fell off the
root with no narrowing. -/
def flowWalk (dfi : Bool) (o : EvalOracle) (callCode : String) (pos : Option Nat) :
    List FlowNode → Option (Option (List Rep))
  | [] => some none
  | f :: rest =>
    match check_flow_information dfi o f callCode pos with
    | none => none
    | some n => if n.isEmpty then flowWalk dfi o callCode pos rest else some (some n)

/-- `NameFinder._names_to_types(names)` (finder.py:310-332).  `isTreeName` is
`isinstance(self.name_str, pr.Name)`; `flowChain` is the ancestor chain of
`self.name_str.parent.parent` (so `flowChain.any (kind = funcExec)` is the
`get_parent_until(er.FunctionExecution)` test, computed once before the
loop); `nameTypes` is the memoized `_name_to_types` resolution of one name;
`getattrTypes` is `self._check_getattr(self.scope)`. -/
def _names_to_types (dfi : Bool) (o : EvalOracle) (isTreeName : Bool)
    (flowChain : List FlowNode) (callCode : String) (pos : Option Nat)
    (nameTypes : DefName → List Rep) (names : List DefName)
    (scopeIsInstance : Bool) (getattrTypes : List Rep) : Option (List Rep) :=
  let general :=
    if names.isEmpty && scopeIsInstance then getattrTypes
    else names.flatMap nameTypes
  if isTreeName && !(flowChain.any (fun f => decide (f.kind = SKind.funcExec))) then
    match flowWalk dfi o callCode pos flowChain with
    | none => none
    | some (some n) => some n
    | some none => some general
  else some general

/-! ## Scope chain for global lookups (`global_names_dict_generator`,
finder.py:527-547) -/

/-- One scope of the lexical chain: `isClassLike` is `scope.type ==
'classdef' or isinstance(scope, compiled.CompiledObject) and scope.type() ==
'class'`; `isFuncdef` is `scope.type == 'funcdef'`; `namesDicts` are the
identities of the dictionaries `scope.names_dicts(True)` yields. -/
structure GScope where
  isClassLike : Bool := false
  isFuncdef : Bool := false
  namesDicts : List Nat := []
deriving DecidableEq, Repr

/-- `global_names_dict_generator(evaluator, scope, position)`
(finder.py:527-547), with the scope chain listed innermost first and the
generator rendered as the list of (names dictionary, position cutoff) pairs
it yields.  `builtinDicts` are the built-in namespace's dictionaries. -/
def global_names_dict_generator (builtinDicts : List Nat) :
    List GScope → Option Nat → Bool → List (Nat × Option Nat)
  | [], _, _ => builtinDicts.map (fun d => (d, none))
  | s :: rest, position, inFunc =>
    if s.isClassLike && inFunc then
      global_names_dict_generator builtinDicts rest position inFunc
    else
      s.namesDicts.map (fun d => (d, position)) ++
        (if s.isFuncdef then global_names_dict_generator builtinDicts rest none true
         else global_names_dict_generator builtinDicts rest position inFunc)

/-! ## Tuple-index and descriptor resolution -/

/-- One round of `check_tuple_assignments` (finder.py:642-654), for a single
index over the current representations: the capability-missing case records
a `debug.warning` (collected as the representation's identity), the
`IndexError` case contributes nothing silently. -/
def tupleRound (index : Nat) : List Rep → List Rep × List Nat
  | [] => ([], [])
  | r :: rest =>
    let tail := tupleRound index rest
    match r.idxTable with
    | none => (tail.1, r.id :: tail.2)
    | some table =>
      match table[index]? with
      | none => (tail.1, tail.2)
      | some new => (new ++ tail.1, tail.2)

/-- `check_tuple_assignments(types, name)` (finder.py:637-655):
`indexes` is `name.assignment_indexes()`; the second component collects the
warnings issued. -/
def check_tuple_assignments (indexes : List Nat) (types : List Rep) :
    List Rep × List Nat :=
  match indexes with
  | [] => (types, [])
  | i :: rest =>
    let round := tupleRound i types
    let deeper := check_tuple_assignments rest round.1
    (deeper.1, round.2 ++ deeper.2)

/-- `NameFinder._resolve_descriptors(types)` (finder.py:334-356, up to the
unconditional `continue` that dead-codes the rest of the loop body):
representations with the descriptor capability are replaced by its bound
result, the others pass through unchanged. -/
def _resolve_descriptors (types : List Rep) : List Rep :=
  types.flatMap (fun r =>
    match r.descrReturns with
    | none => [r]
    | some rs => rs)

/-! ## Top-level entry (`NameFinder.find`, finder.py:66-87) -/

/-- The shape of `self.name_str`: a synthetic string lookup, or a genuine
tree `pr.Name` together with whether `name_str.parent.parent` is a
`pr.Param`. -/
inductive NameStrKind where
  | plainStr
  | treeName (grandparentIsParam : Bool)
deriving DecidableEq, Repr

/-- A report to the diagnostics sink: `analysis.add(..., 'name-error', ...)`
or `analysis.add_attribute_error(...)`. -/
inductive Diag where
  | nameError
  | attributeError
deriving DecidableEq, Repr

namespace NameFinder

/-- The diagnostic `find` emits (finder.py:70-81): only when both the name
lookup and the type resolution came back empty, the reference is not part of
a parameter, and it is a genuine tree name (the `str`/`unicode` guard);
`'name-error'` for global lookups, an attribute error otherwise. -/
def findDiag (name_str : NameStrKind) (search_global : Bool)
    (names : List DefName) (types : List Rep) : Option Diag :=
  if names.isEmpty && types.isEmpty &&
      !(decide (name_str = NameStrKind.treeName true)) then
    match name_str with
    | NameStrKind.plainStr => none
    | NameStrKind.treeName _ =>
      some (if search_global then Diag.nameError else Diag.attributeError)
  else none

/-- `NameFinder.find(scopes, search_global)` (finder.py:66-87), parameterized
by the outputs of its two pipeline calls: `names` is
`self.filter_name(scopes, search_global)` and `types` is
`self._names_to_types(names)` (both embedded separately above);
`scopeIsClassOrInstance` is `isinstance(self.scope, (er.Class,
er.Instance))`.  Returns the resolved types (descriptor-processed for
attribute lookups on classes/instances) and the emitted diagnostic; the
function has no failure outcome. -/
def find (name_str : NameStrKind) (search_global : Bool)
    (scopeIsClassOrInstance : Bool) (names : List DefName) (types : List Rep) :
    List Rep × Option Diag :=
  (if scopeIsClassOrInstance && !search_global then _resolve_descriptors types
   else types,
   findDiag name_str search_global names types)

end NameFinder

/-! ## Concrete programs used by the theorems -/

/-- `x = 1` inside the `if` branch of an `if`/`else`, referenced after the
merge point: conditionally reachable (UNSURE verdict from the reachability
primitive). -/
def xIfDef : DefName :=
  { id := 1, value := "x", startPos := 30 }

/-- `x = 2` inside the `else` branch, textually nearer the reference. -/
def xElseDef : DefName :=
  { id := 2, value := "x", startPos := 50 }

/-- The names dictionary of the scope containing the `if`/`else`. -/
def mergeDict : NamesDict :=
  [("x", [xIfDef, xElseDef])]

/-- The defining scope's parent for an instance attribute: the `er.Instance`
wrapper whose underlying class node (`instance.base.base`) is node 7. -/
def privScopeParent : ScopeRef :=
  { kind := SKind.inst, id := 12, baseBase := 7 }

/-- Parent-scope chain of an instance-attribute name occurrence: the
instance-bound method wrapper, the instance, the module — no `pr.Class` node
is ever hit, from any access site. -/
def privChain : List ScopeRef :=
  [{ kind := SKind.instElement, id := 11 },
   { kind := SKind.inst, id := 12, baseBase := 7 },
   { kind := SKind.module, id := 13 }]

/-- First binding occurrence of the private attribute `self.__x`. -/
def privA : DefName :=
  { id := 21, value := "__x", startPos := 10,
    defScopeParent := some privScopeParent, parentScopeChain := privChain }

/-- Second binding occurrence of the same private attribute `self.__x`,
later in the same method. -/
def privB : DefName :=
  { id := 22, value := "__x", startPos := 20,
    defScopeParent := some privScopeParent, parentScopeChain := privChain }

/-- The parsed condition `isinstance(k, str)`: a `power` node with the
`isinstance` name and a parenthesized trailer around the argument list. -/
def cexCond : PyNode :=
  PyNode.node ("power")
    [PyNode.leafName ("isinstance") ("isinstance"),
     PyNode.node ("trailer")
       [PyNode.op ("("),
        PyNode.node ("arglist") [] ("k, str"),
        PyNode.op (")")]
       ("(k, str)")]
    ("isinstance(k, str)")

/-- Collaborator answers for the `isinstance(k, str)` condition: unpacking
yields the two positional arguments `k` and `str`, evaluating the class
expression yields one class which executes to one instance. -/
def cexOracle : EvalOracle where
  unpack := fun _ =>
    [(none, [PyNode.leafName ("k") ("k")]), (none, [PyNode.leafName ("str") ("str")])]
  evalElement := fun _ => [Rep.atom 1]
  execute := fun r => [r]

/-- The `if isinstance(k, str):` construct directly enclosing the
reference. -/
def cexIf : FlowNode :=
  { isIfOrWhile := true, condition := cexCond }

/-- A function-execution scope further out in the ancestor chain. -/
def cexFuncExec : FlowNode :=
  { kind := SKind.funcExec }

/-! ## Theorems -/

/-- C2: resolution through `_name_to_types` is memoized per triple, a
re-entrant call on a triple whose resolution is in progress returns the
cached default (the empty set) — in particular any cached triple returns its
cache entry without recomputation — and resolving the self-referential
program `x = x` with no prior binding yields the empty set at every
sufficient recursion budget, the step-indexed statement that it terminates
instead of recursing indefinitely. -/
theorem name_to_types_memo_guard :
    (∀ (defs : Nat → Option Rhs) (fuel : Nat) (memo : Memo) (key : Nat) (v : List Nat),
        memoLookup memo key = some v →
        _name_to_types defs (fuel + 1) memo key = (v, memo))
    ∧ (∀ fuel : Nat, 2 ≤ fuel → (_name_to_types selfRefDefs fuel [] 0).1 = []) := by
  constructor
  · intro defs fuel memo key v h
    simp [_name_to_types, h]
  · intro fuel h
    obtain ⟨g, rfl⟩ : ∃ g, fuel = g + 2 := ⟨fuel - 2, by omega⟩
    simp [_name_to_types, memoLookup, selfRefDefs]

/-- Witness for C2: a cached triple returns its cache entry, and the
self-referential program resolves to the empty set at budget 5. -/
theorem name_to_types_memo_guard_witness :
    (memoLookup [(3, [9])] 3 = some [9]
      ∧ _name_to_types selfRefDefs 1 [(3, [9])] 3 = ([9], [(3, [9])]))
    ∧ (2 ≤ 5 ∧ (_name_to_types selfRefDefs 5 [] 0).1 = []) :=
  ⟨⟨rfl, name_to_types_memo_guard.1 selfRefDefs 0 [(3, [9])] 3 [9] rfl⟩,
   ⟨by omega, name_to_types_memo_guard.2 5 (by omega)⟩⟩

/-- With the dynamic-flow-information flag off, a flow check never throws and
never narrows, for any chain. -/
theorem flowWalk_dfi_off (o : EvalOracle) (cc : String) (pos : Option Nat) :
    ∀ chain : List FlowNode, flowWalk false o cc pos chain = some none := by
  intro chain
  induction chain with
  | nil => rfl
  | cons f rest ih => simp [flowWalk, check_flow_information, ih]

/-- C10: with `settings.dynamic_flow_information` disabled,
`check_flow_information` yields no narrowing for any flow construct, and the
whole `_names_to_types` pipeline returns exactly the general lookup result
(the per-name resolutions, or the `__getattr__` fallback when no name was
found on an instance): flow-sensitive narrowing never overrides it. -/
theorem dynamic_flow_information_gate :
    ∀ (o : EvalOracle) (flow : FlowNode) (cc : String) (pos : Option Nat)
      (isTreeName : Bool) (flowChain : List FlowNode)
      (nameTypes : DefName → List Rep) (names : List DefName)
      (inst : Bool) (ga : List Rep),
      check_flow_information false o flow cc pos = some []
      ∧ _names_to_types false o isTreeName flowChain cc pos nameTypes names inst ga
          = some (if names.isEmpty && inst then ga else names.flatMap nameTypes) := by
  intro o flow cc pos isTreeName flowChain nameTypes names inst ga
  constructor
  · simp [check_flow_information]
  · unfold _names_to_types
    by_cases h : (isTreeName && !(flowChain.any (fun f => decide (f.kind = SKind.funcExec)))) = true
    · simp [h, flowWalk_dfi_off]
    · simp only [Bool.not_eq_true] at h
      simp [h]

/-- C7: the global-mode scope chain (a) contributes no names dictionaries
for a class-body scope once the walk has crossed into an enclosing function,
(b) yields a function scope's own dictionaries under the incoming cutoff and
then resets the cutoff to unbounded for every scope further out, and (c)
ends, after the chain is exhausted at the outermost scope, with the built-in
namespace's dictionaries under no cutoff. -/
theorem global_names_dict_generator_chain :
    ∀ (b : List Nat) (s : GScope) (rest : List GScope) (pos : Option Nat)
      (inFunc : Bool),
      (s.isClassLike = true →
        global_names_dict_generator b (s :: rest) pos true
          = global_names_dict_generator b rest pos true)
      ∧ (s.isClassLike = false → s.isFuncdef = true →
        global_names_dict_generator b (s :: rest) pos inFunc
          = s.namesDicts.map (fun d => (d, pos))
              ++ global_names_dict_generator b rest none true)
      ∧ global_names_dict_generator b [] pos inFunc
          = b.map (fun d => (d, none)) := by
  intro b s rest pos inFunc
  refine ⟨fun h => ?_, fun h1 h2 => ?_, rfl⟩
  · simp [global_names_dict_generator, h]
  · simp [global_names_dict_generator, h1, h2]

/-- Witness for C7: a class scope inside a function contributes nothing, a
function scope yields its dictionary then unbounds the cutoff, and the
builtin dictionary arrives last with no cutoff. -/
theorem global_names_dict_generator_chain_witness :
    global_names_dict_generator [99] [{ isClassLike := true, namesDicts := [4] },
        { isFuncdef := true, namesDicts := [5] }] (some 8) true
      = [(5, some 8), (99, none)] := by
  have h1 := (global_names_dict_generator_chain [99]
    { isClassLike := true, namesDicts := [4] }
    [{ isFuncdef := true, namesDicts := [5] }] (some 8) true).1 rfl
  have h2 := ((global_names_dict_generator_chain [99]
    { isFuncdef := true, namesDicts := [5] } [] (some 8) true).2).1 rfl rfl
  rw [h1, h2]
  rfl

/-- Counterexample for C6: a synthetic string lookup that finds nothing
anywhere reports no diagnostic at all, against the claim that every
empty-handed top-level query is reported. -/
theorem find_no_report_for_string_lookup :
    NameFinder.find NameStrKind.plainStr true false [] [] = ([], none) := rfl

/-- C6 (amended): `find` reports exactly when both the name lookup and the
type resolution are empty and the reference is a genuine tree name not
directly under a parameter; the code is `name-error` in global mode and an
attribute error otherwise; the returned value is always the (possibly
descriptor-resolved) type list, never a raised fault. -/
theorem find_reports_only_tree_name_not_found :
    ∀ (ns : NameStrKind) (sg sc : Bool) (names : List DefName) (types : List Rep),
      ((NameFinder.find ns sg sc names types).2 ≠ none ↔
        names = [] ∧ types = [] ∧ ns = NameStrKind.treeName false)
      ∧ (NameFinder.find ns sg sc names types).1
          = (if sc && !sg then _resolve_descriptors types else types)
      ∧ (names = [] → types = [] → ns = NameStrKind.treeName false →
          (NameFinder.find ns sg sc names types).2
            = some (if sg then Diag.nameError else Diag.attributeError)) := by
  intro ns sg sc names types
  refine ⟨?_, rfl, ?_⟩
  · unfold NameFinder.find NameFinder.findDiag
    rcases ns with _ | gp
    · by_cases h1 : names.isEmpty <;> by_cases h2 : types.isEmpty <;>
        simp_all [List.isEmpty_iff]
    · rcases gp with _ | _ <;>
        by_cases h1 : names.isEmpty <;> by_cases h2 : types.isEmpty <;>
        simp_all [List.isEmpty_iff]
  · rintro rfl rfl rfl
    rfl

/-- Witness for C6's amended theorem: an unresolvable genuine tree name in
global mode produces the `name-error` report with an empty result. -/
theorem find_reports_witness :
    (NameFinder.find (NameStrKind.treeName false) true false [] []).2
      = some Diag.nameError :=
  (find_reports_only_tree_name_not_found (NameStrKind.treeName false) true false
    [] []).2.2 rfl rfl rfl

/-- Counterexample for C4: for a parameter with both a documented type hint
and call-site argument-search results, `_eval_param` returns the documented
hint, not the call-site results — the documentation fallback is consulted
before the call-site search, against the claimed order. -/
theorem eval_param_doc_precedes_dynamic :
    _eval_param [] [] 0 { docParams := [10], dynamicParams := [20] } {} {} = [10]
    ∧ ([10] : List Nat) ≠ [20] := ⟨rfl, by decide⟩

/-- C4 (amended): outside the generated-`__init__` rebinding, `_eval_param`
resolves in the order (1) synthesized/reused self-instance for the first
parameter of an unbound method, (2) documented type hint, (3) bound argument
when already call-bound, (4) call-site argument search, whose empty result
falls back to an empty tuple/mapping container for variadic parameters, with
the evaluated default-value expression appended to case (4)'s result
whenever a default exists (not only when everything else failed). -/
theorem eval_param_priority_order :
    ∀ (te de : List Nat) (ni : Nat) (p : PyParam) (f : FuncInfo) (s : EvalScope),
      f.isGeneratedInit = false →
      (f.clsIsClass ∧ p.positionNr = 0 ∧ ¬p.isExecuted →
        _eval_param te de ni p f s
          = if s.isInstanceElement then [s.instanceVal] else [ni])
      ∧ (¬(f.clsIsClass ∧ p.positionNr = 0 ∧ ¬p.isExecuted) →
          (p.docParams ≠ [] → _eval_param te de ni p f s = p.docParams)
          ∧ (p.docParams = [] → p.isExecuted = true →
              _eval_param te de ni p f s = p.executedEval)
          ∧ (p.docParams = [] → p.isExecuted = false → p.dynamicParams ≠ [] →
              _eval_param te de ni p f s = p.dynamicParams ++ p.defaultEval.getD [])
          ∧ (p.docParams = [] → p.isExecuted = false → p.dynamicParams = [] →
              p.stars = 1 →
              _eval_param te de ni p f s = te ++ p.defaultEval.getD [])
          ∧ (p.docParams = [] → p.isExecuted = false → p.dynamicParams = [] →
              p.stars = 2 →
              _eval_param te de ni p f s = de ++ p.defaultEval.getD [])
          ∧ (p.docParams = [] → p.isExecuted = false → p.dynamicParams = [] →
              p.stars = 0 →
              _eval_param te de ni p f s = p.defaultEval.getD [])) := by
  intro te de ni p f s hgen
  constructor
  · intro h
    simp [_eval_param, h]
  · intro h
    refine ⟨fun hd => ?_, fun hd he => ?_, fun hd he hdyn => ?_,
            fun hd he hdyn hs => ?_, fun hd he hdyn hs => ?_,
            fun hd he hdyn hs => ?_⟩
    all_goals (simp only [_eval_param]; rw [if_neg h]; simp [hgen, *])

/-- Witness for C4's amended theorem: the documentation hint wins over a
present call-site result, and a `*args` parameter with no information gets
the empty tuple container plus its default. -/
theorem eval_param_priority_order_witness :
    _eval_param [5] [6] 0 { docParams := [7], dynamicParams := [8] } {} {} = [7]
    ∧ _eval_param [5] [6] 0 { stars := 1, defaultEval := some [9] } {} {}
        = [5] ++ [9] :=
  ⟨((eval_param_priority_order [5] [6] 0 { docParams := [7], dynamicParams := [8] }
      {} {} rfl).2 (by simp)).1 (by decide),
   (((eval_param_priority_order [5] [6] 0 { stars := 1, defaultEval := some [9] }
      {} {} rfl).2 (by simp)).2.2.2.1 rfl rfl rfl rfl)⟩

/-- C5: evaluation of the embedded private-name filter at the failing input.
Two binding occurrences of `self.__x` in a method of class C: the
remove-during-iteration slip in `filter_definition_names` (finder.py:45-49)
skips the second occurrence, so a lookup — from anywhere, including outside
the class — returns it; with a single occurrence the name is removed for
every access site, including the class's own methods, because
`filter_private_variable` receives only the candidate name and its defining
scope, never the referencing context. -/
theorem private_filter_site_insensitive_bug :
    NameFinder.names_dict_lookup false (fun n => n) [("__x", [privA, privB])]
        ("__x") none = [privB]
    ∧ filter_definition_names [privA] none = []
    ∧ filter_private_variable privA.defScopeParent privA.parentScopeChain = true
    ∧ filter_private_variable privB.defScopeParent privB.parentScopeChain = true := by
  decide

/-- When no candidate is a private name the remove loop leaves the list
untouched. -/
theorem privFilterLoop_no_private (sp : Option ScopeRef) :
    ∀ (fuel : Nat) (names : List DefName) (i : Nat),
      (∀ n ∈ names, isPrivateName n.value = false) →
      privFilterLoop sp fuel names i = names := by
  intro fuel
  induction fuel with
  | zero => intro names i _; rfl
  | succ fuel ih =>
    intro names i h
    unfold privFilterLoop
    by_cases hi : i < names.length
    · have hpriv : isPrivateName (names[i].value) = false :=
        h names[i] (List.getElem_mem hi)
      simp [hi, hpriv, ih names (i + 1) h]
    · simp [hi]

/-- On a list of plain candidates with no position cutoff,
`filter_definition_names` is the identity. -/
theorem filter_definition_names_plain (names : List DefName)
    (h : ∀ n ∈ names, plainName n = true) :
    filter_definition_names names none = names := by
  match names with
  | [] => rfl
  | first :: rest =>
    have hfirst := h first (List.mem_cons_self _ _)
    simp only [plainName, Bool.and_eq_true, decide_eq_true_eq] at hfirst
    have hstmt : ¬(first.stmtKind = StmtKind.compFor ∨
        first.stmtKind = StmtKind.lambdaDef ∨ first.stmtKind = StmtKind.globalStmt) := by
      rw [hfirst.1.2]; simp
    have hl : privFilterLoop first.defScopeParent (first :: rest).length
        (first :: rest) 0 = first :: rest := by
      apply privFilterLoop_no_private
      intro n hn
      have := h n hn
      simp only [plainName, Bool.and_eq_true, Bool.not_eq_true'] at this
      exact this.1.1.1.2
    have hdef : List.filter (fun n => n.isDefinition) (first :: rest)
        = first :: rest := by
      rw [List.filter_eq_self]
      intro n hn
      have := h n hn
      simp only [plainName, Bool.and_eq_true] at this
      exact this.1.1.2
    have hfap : filter_after_position (first :: rest) none = first :: rest := rfl
    simp only [filter_definition_names, if_neg hstmt, hl, hfap, ite_self, hdef]

/-- Membership is preserved by sorted insertion. -/
theorem mem_insertAsc (x n : DefName) :
    ∀ l : List DefName, x ∈ insertAsc n l ↔ x = n ∨ x ∈ l := by
  intro l
  induction l with
  | nil => simp [insertAsc]
  | cons m rest ih =>
    by_cases hc : m.startPos ≤ n.startPos
    · simp only [insertAsc, if_pos hc, List.mem_cons, ih]
      tauto
    · simp only [insertAsc, if_neg hc, List.mem_cons]

/-- Unfolding equation of `names_dict_lookup` for a non-empty dictionary
entry. -/
theorem names_dict_lookup_cons (si : Bool) (pbn : DefName → DefName)
    (dict : NamesDict) (s : String) (first : DefName) (rest : List DefName)
    (pos : Option Nat) (hdict : dictLookup dict s = some (first :: rest)) :
    NameFinder.names_dict_lookup si pbn dict s pos =
      (if (NameFinder.ndlWalk si
            ((sortAscending (filter_definition_names (first :: rest) pos)).reverse)
            [] none).2 = some SKind.funcExec
       then (NameFinder.ndlWalk si
            ((sortAscending (filter_definition_names (first :: rest) pos)).reverse)
            [] none).1.map (NameFinder.get_param pbn)
       else (NameFinder.ndlWalk si
            ((sortAscending (filter_definition_names (first :: rest) pos)).reverse)
            [] none).1) := by
  unfold NameFinder.names_dict_lookup
  rw [hdict]

/-- Membership is preserved by the stable sort. -/
theorem mem_sortAscending (x : DefName) :
    ∀ l : List DefName, x ∈ sortAscending l ↔ x ∈ l := by
  intro l
  induction l with
  | nil => simp [sortAscending]
  | cons n rest ih => simp [sortAscending, mem_insertAsc, ih]

/-- Sorted insertion preserves ascending order of start positions. -/
theorem pairwise_insertAsc (n : DefName) :
    ∀ l : List DefName,
      l.Pairwise (fun a b => a.startPos ≤ b.startPos) →
      (insertAsc n l).Pairwise (fun a b => a.startPos ≤ b.startPos) := by
  intro l
  induction l with
  | nil => intro _; simp [insertAsc]
  | cons m rest ih =>
    intro h
    rw [List.pairwise_cons] at h
    unfold insertAsc
    by_cases hc : m.startPos ≤ n.startPos
    · rw [if_pos hc, List.pairwise_cons]
      refine ⟨?_, ih h.2⟩
      intro a ha
      rw [mem_insertAsc] at ha
      rcases ha with rfl | ha
      · exact hc
      · exact h.1 a ha
    · rw [if_neg hc, List.pairwise_cons]
      refine ⟨?_, List.pairwise_cons.mpr h⟩
      intro a ha
      rcases List.mem_cons.mp ha with rfl | ha
      · omega
      · exact Nat.le_trans (by omega) (h.1 a ha)

/-- The stable sort produces ascending start positions. -/
theorem sortAscending_pairwise :
    ∀ l : List DefName,
      (sortAscending l).Pairwise (fun a b => a.startPos ≤ b.startPos) := by
  intro l
  induction l with
  | nil => simp [sortAscending]
  | cons n rest ih => exact pairwise_insertAsc n _ ih

/-- The candidate walk on plain candidates: the accumulator grows by exactly
the spec-worded accumulation, and the running scope variable never becomes a
function execution. -/
theorem ndlWalk_plain :
    ∀ (l : List DefName) (acc : List DefName) (ns : Option SKind),
      (∀ n ∈ l, plainName n = true) →
      ns ≠ some SKind.funcExec →
      (NameFinder.ndlWalk false l acc ns).1 = acc ++ specAccum l
      ∧ (NameFinder.ndlWalk false l acc ns).2 ≠ some SKind.funcExec := by
  intro l
  induction l with
  | nil =>
    intro acc ns _ hns
    exact ⟨by simp [NameFinder.ndlWalk, specAccum], hns⟩
  | cons n rest ih =>
    intro acc ns h hns
    have hn := h n (List.mem_cons_self _ _)
    simp only [plainName, Bool.and_eq_true, Bool.not_eq_true',
      decide_eq_false_iff_not] at hn
    obtain ⟨⟨⟨⟨⟨⟨⟨hc, hf⟩, hcn⟩, hsp⟩, -⟩, -⟩, -⟩, -⟩ := hn
    have hrest : ∀ m ∈ rest, plainName m = true :=
      fun m hm => h m (List.mem_cons_of_mem _ hm)
    have hns1 : (some n.nameScopeKind : Option SKind) ≠ some SKind.funcExec := by
      simpa using hf
    rcases hv : n.verdict with _ | _ | _
    · -- reachable: stop, keeping the accumulated list plus this candidate
      simp only [NameFinder.ndlWalk]
      simp [hc, hcn, hsp, hv, specAccum, hns1]
    · -- unreachable: skip
      have hih := ih acc (some n.nameScopeKind) hrest hns1
      simp only [NameFinder.ndlWalk]
      simp [hc, hcn, hsp, hv, specAccum, hih.1, hih.2]
    · -- unsure: accumulate and continue
      have hih := ih (acc ++ [n]) (some n.nameScopeKind) hrest hns1
      simp only [NameFinder.ndlWalk]
      simp [hc, hcn, hsp, hv, specAccum, hih.1, hih.2]

/-- C1: on surviving plain candidates, `names_dict_lookup` walks the
candidates in descending textual position (the processed sequence is sorted
most-recent-first), accumulates every candidate whose reachability verdict
is not UNREACHABLE, and stops at the first REACHABLE verdict while keeping
everything accumulated so far — the walk equals the spec-worded
accumulation over the descending order.  In particular, for a name assigned
in both branches of an `if`/`else` and referenced after the merge (both
definitions conditionally reachable), the result lists both branches'
definitions with the branch nearer the reference first. -/
theorem names_dict_lookup_descends_and_accumulates :
    (∀ (paramByName : DefName → DefName) (dict : NamesDict) (s : String)
        (names : List DefName),
        dictLookup dict s = some names →
        (∀ n ∈ names, plainName n = true) →
        NameFinder.names_dict_lookup false paramByName dict s none
            = specAccum ((sortAscending names).reverse)
          ∧ ((sortAscending names).reverse).Pairwise
              (fun a b => b.startPos ≤ a.startPos))
    ∧ NameFinder.names_dict_lookup false (fun n => n) mergeDict ("x") none
        = [xElseDef, xIfDef] := by
  constructor
  · intro pbn dict s names hdict h
    constructor
    · cases names with
      | nil =>
        unfold NameFinder.names_dict_lookup
        rw [hdict]
        rfl
      | cons first rest =>
        rw [names_dict_lookup_cons false pbn dict s first rest none hdict,
          filter_definition_names_plain _ h]
        have hsortmem : ∀ n ∈ (sortAscending (first :: rest)).reverse,
            plainName n = true := by
          intro n hn
          rw [List.mem_reverse, mem_sortAscending] at hn
          exact h n hn
        have hw := ndlWalk_plain ((sortAscending (first :: rest)).reverse) [] none
          hsortmem (by simp)
        rw [if_neg hw.2]
        simpa using hw.1
    · rw [List.pairwise_reverse]
      exact sortAscending_pairwise names
  · decide

/-- Witness for C1: the `if`/`else` merge dictionary satisfies the
hypotheses, and the theorem computes its lookup result. -/
theorem names_dict_lookup_descends_witness :
    dictLookup mergeDict ("x") = some [xIfDef, xElseDef]
    ∧ NameFinder.names_dict_lookup false (fun n => n) mergeDict ("x") none
        = specAccum ((sortAscending [xIfDef, xElseDef]).reverse) :=
  ⟨rfl,
   (names_dict_lookup_descends_and_accumulates.1 (fun n => n) mergeDict ("x")
     [xIfDef, xElseDef] rfl (by decide)).1⟩

/-- `tupleRound` distributes over list append, componentwise. -/
theorem tupleRound_append (i : Nat) :
    ∀ xs ys : List Rep,
      tupleRound i (xs ++ ys)
        = ((tupleRound i xs).1 ++ (tupleRound i ys).1,
           (tupleRound i xs).2 ++ (tupleRound i ys).2) := by
  intro xs ys
  induction xs with
  | nil => simp [tupleRound]
  | cons r rest ih =>
    rcases h : r.idxTable with _ | table
    · simp [tupleRound, h, ih]
    · rcases hg : table[i]? with _ | new <;> simp [tupleRound, h, hg, ih]

/-- C9: a value representation lacking the probed capability is skipped, not
failed: in tuple-index resolution a representation without
`get_exact_index_types` contributes nothing to the result while a
debug-level warning is recorded for it, an in-range-lookup miss
(`IndexError`) contributes nothing silently, and in descriptor resolution a
representation without `get_descriptor_returns` passes through unchanged;
all three are equations on total functions, so neither operation raises. -/
theorem capability_missing_is_skipped :
    (∀ (i : Nat) (idx : List Nat) (xs : List Rep) (r : Rep) (ys : List Rep),
        r.idxTable = none →
        (check_tuple_assignments (i :: idx) (xs ++ r :: ys)).1
            = (check_tuple_assignments (i :: idx) (xs ++ ys)).1
          ∧ r.id ∈ (check_tuple_assignments (i :: idx) (xs ++ r :: ys)).2)
    ∧ (∀ (i : Nat) (idx : List Nat) (xs : List Rep) (r : Rep) (ys : List Rep)
          (table : List (List Rep)),
        r.idxTable = some table → table[i]? = none →
        check_tuple_assignments (i :: idx) (xs ++ r :: ys)
          = check_tuple_assignments (i :: idx) (xs ++ ys))
    ∧ (∀ (xs : List Rep) (r : Rep) (ys : List Rep),
        r.descrReturns = none →
        _resolve_descriptors (xs ++ r :: ys)
          = _resolve_descriptors xs ++ r :: _resolve_descriptors ys) := by
  refine ⟨?_, ?_, ?_⟩
  · intro i idx xs r ys h
    have hr : tupleRound i (r :: ys)
        = ((tupleRound i ys).1, r.id :: (tupleRound i ys).2) := by
      simp [tupleRound, h]
    constructor
    · simp [check_tuple_assignments, tupleRound_append, hr]
    · simp [check_tuple_assignments, tupleRound_append, hr]
  · intro i idx xs r ys table h hget
    have hr : tupleRound i (r :: ys) = tupleRound i ys := by
      simp [tupleRound, h, hget]
    simp [check_tuple_assignments, tupleRound_append, hr]
  · intro xs r ys h
    simp [_resolve_descriptors, h]

/-- Witness for C9: a capability-free representation between two indexable
ones is dropped with its warning, an out-of-range index is silent, and a
non-descriptor representation passes descriptor resolution unchanged. -/
theorem capability_missing_is_skipped_witness :
    ((check_tuple_assignments [0] [Rep.atom 5, Rep.mk 6 (some [[Rep.atom 9]]) none none]).1
        = (check_tuple_assignments [0] [Rep.mk 6 (some [[Rep.atom 9]]) none none]).1
      ∧ 5 ∈ (check_tuple_assignments [0]
          [Rep.atom 5, Rep.mk 6 (some [[Rep.atom 9]]) none none]).2)
    ∧ check_tuple_assignments [3] [Rep.mk 6 (some [[Rep.atom 9]]) none none]
        = check_tuple_assignments [3] ([] : List Rep)
    ∧ _resolve_descriptors [Rep.atom 5] = [Rep.atom 5] :=
  ⟨capability_missing_is_skipped.1 0 [] []
      (Rep.atom 5) [Rep.mk 6 (some [[Rep.atom 9]]) none none] rfl,
   capability_missing_is_skipped.2.1 3 [] []
      (Rep.mk 6 (some [[Rep.atom 9]]) none none) [] [[Rep.atom 9]] rfl rfl,
   (capability_missing_is_skipped.2.2 [] (Rep.atom 5) []) rfl⟩

/-- Counterexample for C3: the reference sits under an `if isinstance(k,
str)` whose narrowing is non-empty, but because a function-execution scope
appears further out in the ancestor chain, the walk runs zero iterations and
the general (empty) lookup result stands — the innermost construct's
non-empty narrowing does not determine the result. -/
theorem flow_narrowing_skipped_inside_execution :
    _names_to_types true cexOracle true [cexIf, cexFuncExec] ("k") none
        (fun _ => []) [] false [] = some []
    ∧ check_flow_information true cexOracle cexIf ("k") none
        = some [Rep.atom 1] := ⟨rfl, rfl⟩

/-- C3 (amended): the function-boundary test is evaluated once, from the
innermost flow scope: if any enclosing scope of the reference is a
function execution, flow narrowing is skipped entirely and the general
lookup result stands; otherwise the walk proceeds outward through the whole
ancestor chain (crossing plain function definitions), and the first —
innermost — construct yielding a non-empty narrowing determines the entire
result regardless of anything further out, overriding the general lookup. -/
theorem flow_narrowing_walk_structure :
    ∀ (dfi : Bool) (o : EvalOracle) (cc : String) (pos : Option Nat)
      (nameTypes : DefName → List Rep) (names : List DefName) (inst : Bool)
      (ga : List Rep) (flowChain : List FlowNode) (f : FlowNode)
      (rest : List FlowNode) (n : List Rep),
      (flowChain.any (fun g => decide (g.kind = SKind.funcExec)) = true →
        _names_to_types dfi o true flowChain cc pos nameTypes names inst ga
          = some (if names.isEmpty && inst then ga else names.flatMap nameTypes))
      ∧ (flowChain.any (fun g => decide (g.kind = SKind.funcExec)) = false →
        _names_to_types dfi o true flowChain cc pos nameTypes names inst ga
          = match flowWalk dfi o cc pos flowChain with
            | none => none
            | some (some r) => some r
            | some none =>
                some (if names.isEmpty && inst then ga else names.flatMap nameTypes))
      ∧ (check_flow_information dfi o f cc pos = some n → n ≠ [] →
        flowWalk dfi o cc pos (f :: rest) = some (some n)) := by
  intro dfi o cc pos nameTypes names inst ga flowChain f rest n
  refine ⟨fun h => ?_, fun h => ?_, fun h hn => ?_⟩
  · simp only [_names_to_types, h, Bool.not_true, Bool.and_false]
    rfl
  · simp only [_names_to_types, h, Bool.not_false, Bool.and_true]
    rfl
  · have hne : n.isEmpty = false := by
      cases n with
      | nil => exact absurd rfl hn
      | cons a l => rfl
    simp [flowWalk, h, hne]

/-- Witness for C3's amended theorem: the narrowing construct alone (no
enclosing function execution) decides the walk, and the empty chain falls
back to the general result. -/
theorem flow_narrowing_walk_structure_witness :
    flowWalk true cexOracle ("k") none [cexIf] = some (some [Rep.atom 1])
    ∧ _names_to_types true cexOracle true [] ("k") none (fun _ => [])
        [] false [] = some [] :=
  ⟨(flow_narrowing_walk_structure true cexOracle ("k") none (fun _ => [])
      [] false [] [] cexIf [] [Rep.atom 1]).2.2 rfl (by simp),
   ((flow_narrowing_walk_structure true cexOracle ("k") none (fun _ => [])
      [] false [] [] cexIf [] [Rep.atom 1]).2.1 rfl).trans rfl⟩

/-- C8: `_check_isinstance_type` yields a non-empty narrowing only for a
direct two-argument `isinstance` call — a `power` node whose first child is
the name `isinstance`, with a parenthesized three-child trailer, whose
argument list unpacks to exactly two keyword-free arguments — whose first
argument's textual code equals the access expression's code; and each of the
rejected shapes (non-call syntax, wrong arity or keyword arguments, textual
mismatch) is answered with the caught-`AssertionError` empty list, not an
error. -/
theorem check_isinstance_shape_gate :
    ∀ (o : EvalOracle) (e : PyNode) (cc : String) (r : List Rep),
      (_check_isinstance_type o e cc = some r → r ≠ [] →
        e.typeOf = "power"
        ∧ ∃ first trailer, e.childrenOf = [first, trailer]
            ∧ first.isNameWith ("isinstance") = true
            ∧ trailer.typeOf = "trailer"
            ∧ ∃ c0 arglist c2, trailer.childrenOf = [c0, arglist, c2]
                ∧ c0.isOp ("(") = true
                ∧ ∃ nm restNm cls restCls,
                    o.unpack arglist = [(none, nm :: restNm), (none, cls :: restCls)]
                    ∧ nm.codeOf = cc)
      ∧ (e.typeOf ≠ "power" → _check_isinstance_type o e cc = some [])
      ∧ (∀ first trailer arglist c2,
          e.childrenOf = [first, trailer] →
          trailer.childrenOf = [PyNode.op ("("), arglist, c2] →
          (∀ v1 v2, o.unpack arglist ≠ [(none, v1), (none, v2)]) →
          _check_isinstance_type o e cc = some [])
      ∧ (∀ first trailer arglist c2 nm restNm cls restCls,
          e.childrenOf = [first, trailer] →
          trailer.childrenOf = [PyNode.op ("("), arglist, c2] →
          o.unpack arglist = [(none, nm :: restNm), (none, cls :: restCls)] →
          nm.codeOf ≠ cc →
          _check_isinstance_type o e cc = some []) := by
  intro o e cc r
  refine ⟨fun h hr => ?_, fun h1 => ?_,
    fun first trailer arglist c2 hch htch hup => ?_,
    fun first trailer arglist c2 nm restNm cls restCls hch htch hup hcode => ?_⟩
  · by_cases h1 : e.typeOf = "power"
    swap
    · unfold _check_isinstance_type at h
      rw [if_pos h1] at h
      simp only [Option.some.injEq] at h
      exact (hr h.symm).elim
    unfold _check_isinstance_type at h
    rw [if_neg (by simp [h1])] at h
    refine ⟨h1, ?_⟩
    rcases hch : e.childrenOf with _ | ⟨first, _ | ⟨trailer, _ | ⟨c3, cs⟩⟩⟩ <;>
      rw [hch] at h <;> dsimp only at h
    · simp_all
    · simp_all
    swap
    · simp_all
    refine ⟨first, trailer, rfl, ?_⟩
    by_cases hn : first.isNameWith ("isinstance")
    swap
    · simp [hn] at h; simp_all
    simp only [hn, Bool.not_true, Bool.false_eq_true, if_false] at h
    by_cases htt : trailer.typeOf = "trailer"
    swap
    · rw [if_pos htt] at h; simp_all
    rw [if_neg (by simp [htt])] at h
    refine ⟨hn, htt, ?_⟩
    rcases htch : trailer.childrenOf with _ | ⟨c0, restc⟩ <;> rw [htch] at h
    · simp_all
    by_cases hop : c0.isOp ("(")
    swap
    · simp [hop] at h; simp_all
    simp only [hop, Bool.not_true, Bool.false_eq_true, if_false] at h
    rcases restc with _ | ⟨a1, _ | ⟨a2, _ | ⟨a3, as3⟩⟩⟩
    · simp_all
    · simp_all
    swap
    · simp_all
    dsimp only at h
    refine ⟨c0, a1, a2, rfl, hop, ?_⟩
    rcases hup : o.unpack a1 with _ | ⟨⟨k1, v1⟩, _ | ⟨⟨k2, v2⟩, _ | ⟨p3, tl⟩⟩⟩ <;>
      rw [hup] at h
    · simp_all
    · rcases k1 with _ | key1 <;> simp_all
    · rcases k1 with _ | key1
      · rcases k2 with _ | key2
        · rcases v1 with _ | ⟨nm, restNm⟩
          · simp_all
          rcases v2 with _ | ⟨cls, restCls⟩
          · simp_all
          by_cases hcode : nm.codeOf = cc
          · exact ⟨nm, restNm, cls, restCls, rfl, hcode⟩
          · simp [hcode] at h; simp_all
        · simp_all
      · simp_all
    · rcases k1 with _ | key1 <;> rcases k2 with _ | key2 <;> simp_all
  · unfold _check_isinstance_type
    rw [if_pos h1]
  · unfold _check_isinstance_type
    by_cases h1 : e.typeOf = "power"
    swap
    · rw [if_pos h1]
    rw [if_neg (by simp [h1]), hch]
    dsimp only
    by_cases hn : first.isNameWith ("isinstance")
    swap
    · simp [hn]
    simp only [hn, Bool.not_true, Bool.false_eq_true, if_false]
    by_cases htt : trailer.typeOf = "trailer"
    swap
    · rw [if_pos htt]
    rw [if_neg (by simp [htt]), htch]
    dsimp only
    have hop : (PyNode.op ("(")).isOp ("(") = true := rfl
    simp only [hop, Bool.not_true, Bool.false_eq_true, if_false]
  · unfold _check_isinstance_type
    by_cases h1 : e.typeOf = "power"
    swap
    · rw [if_pos h1]
    rw [if_neg (by simp [h1]), hch]
    dsimp only
    by_cases hn : first.isNameWith ("isinstance")
    swap
    · simp [hn]
    simp only [hn, Bool.not_true, Bool.false_eq_true, if_false]
    by_cases htt : trailer.typeOf = "trailer"
    swap
    · rw [if_pos htt]
    rw [if_neg (by simp [htt]), htch]
    dsimp only
    have hop : (PyNode.op ("(")).isOp ("(") = true := rfl
    simp only [hop, Bool.not_true, Bool.false_eq_true, if_false]
    rw [hup]
    simp [hcode]

/-- Witness for C8: the well-shaped `isinstance(k, str)` condition produces
a non-empty narrowing and therefore satisfies every shape condition, while a
bare operator node (non-call syntax) is answered with the empty list. -/
theorem check_isinstance_shape_gate_witness :
    (cexCond.typeOf = "power"
      ∧ ∃ first trailer, cexCond.childrenOf = [first, trailer]
          ∧ first.isNameWith ("isinstance") = true
          ∧ trailer.typeOf = "trailer"
          ∧ ∃ c0 arglist c2, trailer.childrenOf = [c0, arglist, c2]
              ∧ c0.isOp ("(") = true
              ∧ ∃ nm restNm cls restCls,
                  cexOracle.unpack arglist
                      = [(none, nm :: restNm), (none, cls :: restCls)]
                  ∧ nm.codeOf = "k")
    ∧ _check_isinstance_type cexOracle (PyNode.op ("x")) ("k") = some [] :=
  ⟨(check_isinstance_shape_gate cexOracle cexCond ("k") [Rep.atom 1]).1 rfl
      (by simp),
   (check_isinstance_shape_gate cexOracle (PyNode.op ("x")) ("k") []).2.1
      (by simp [PyNode.typeOf])⟩

end JediFinder
